import Mathlib

/-!
Verification of the pyRevit "Print Sheets" pushbutton script
(`extensions/pyRevitTools.extension/pyRevit.tab/Drawing Set.panel/Print
Sheets.pushbutton/script.py`).

Strings are modelled as `List Char`.  Each definition below is a shallow
embedding of the corresponding Python function or code block; field and
function names follow the source where Lean permits.
-/

/-- The non-printable marker character `NPC` (U+200E, Left-To-Right Mark)
from the script's module level. -/
def NPC : Char := Char.ofNat 0x200E

/-- A sheet as the script sees it.  `sheetNumber` is the live
`SheetNumber` of the underlying Revit sheet, `name` its `Name`,
`printable` the cached `CanBePrinted` flag of the `ViewSheetListItem`,
and `printIndex` the formatted `print_index` string assigned by
`_update_print_indices`. -/
structure Sheet where
  sheetNumber : List Char
  name : List Char
  printable : Bool
  printIndex : List Char
deriving DecidableEq, Repr

/-- Python's `str.strip()`: remove leading and trailing whitespace. -/
def pyStrip (s : List Char) : List Char :=
  ((s.dropWhile Char.isWhitespace).reverse.dropWhile Char.isWhitespace).reverse

/-- `_get_schedule_text_data` (lines 240-248): the schedule view has been
exported to a text file; reading it either yields its lines (`.ok`) or
raises (`.error`).  On success every line is stripped; on failure the
error is logged and the initial empty `sched_data` list is returned. -/
def getScheduleTextData (readResult : Except (List Char) (List (List Char))) :
    List (List Char) :=
  match readResult with
  | .ok fileLines => fileLines.map pyStrip
  | .error _ => []

/-- Helper for the schedule-line regex `(^|.*\t){num}(\t.*|$)`: the text
`num` occurs at the head of `rest` and is followed by a tab or by the end
of the line. -/
def matchesFrom (num rest : List Char) : Bool :=
  num.isPrefixOf rest &&
    (match rest.drop num.length with
     | [] => true
     | c :: _ => c = '\t')

/-- All suffixes of a line that start immediately after a tab character:
the positions the `.*\t` alternative of the regex can reach. -/
def tailsAfterTab : List Char → List (List Char)
  | [] => []
  | c :: rest => (if c = '\t' then [rest] else []) ++ tailsAfterTab rest

/-- `re.match(r'(^|.*\t){}(\t.*|$)'.format(sheet.SheetNumber), data_line)`
from `_order_sheets_by_schedule_data` (line 260-261), for a sheet number
that contains no regex metacharacters: the line matches iff the number
occurs at the start of the line or right after a tab, and is followed by
a tab or the end of the line.  (Exported schedule lines come from
`readlines()` + `strip()` and therefore contain no newline, so `.` is
unrestricted here.) -/
def matchesLine (num line : List Char) : Bool :=
  matchesFrom num line || (tailsAfterTab line).any (matchesFrom num)

/-- The inner loop of `_order_sheets_by_schedule_data` (lines 259-266):
the 0-based index of the first schedule line matching the sheet number,
if any (`break` stops at the first match). -/
def firstMatchLine (num : List Char) (sched : List (List Char)) : Option Nat :=
  sched.findIdx? (matchesLine num)

/-- The sequence of `ordered_sheets_dict[line_no] = sheet` assignments made
by the outer loop of `_order_sheets_by_schedule_data` (lines 257-266), in
execution order: one per sheet that matches some line. -/
def orderAssignments (sheets : List Sheet) (sched : List (List Char)) :
    List (Nat × Sheet) :=
  sheets.filterMap fun s =>
    (firstMatchLine s.sheetNumber sched).map fun lineNo => (lineNo, s)

/-- Python dict semantics for `ordered_sheets_dict`: the value stored at a
key is the one written by the last assignment with that key. -/
def dictGet (ps : List (Nat × Sheet)) (k : Nat) : Option Sheet :=
  ((ps.filter fun p => p.1 == k).getLast?).map Prod.snd

/-- `_order_sheets_by_schedule_data` (lines 250-274), given the text data
already read: if there is no schedule data return the input list
unchanged, otherwise build `ordered_sheets_dict` and return its values
for `sorted(ordered_sheets_dict.keys())`. -/
def orderSheetsBySchedData (schedData : List (List Char)) (sheetList : List Sheet) :
    List Sheet :=
  if schedData.isEmpty then sheetList
  else
    let ps := orderAssignments sheetList schedData
    let sortedKeys := List.insertionSort (· ≤ ·) (ps.map Prod.fst).dedup
    sortedKeys.filterMap (dictGet ps)

/-- `_order_sheets_by_schedule_data` including the `_get_schedule_text_data`
call it starts with (line 251). -/
def orderSheetsBySchedule (readResult : Except (List Char) (List (List Char)))
    (sheetList : List Sheet) : List Sheet :=
  orderSheetsBySchedData (getScheduleTextData readResult) sheetList

example : matchesLine "A1".toList "X\tA1\tY".toList = true := by decide

example : matchesLine "A1".toList "XA1\tY".toList = false := by decide

example : firstMatchLine "B".toList ["A\tB".toList, "B".toList] = some 0 := by
  decide

example :
    orderSheetsBySchedData [] [⟨"A".toList, [], true, []⟩] =
      [⟨"A".toList, [], true, []⟩] := by decide

example :
    orderSheetsBySchedData ["B".toList, "A".toList]
      [⟨"A".toList, [], true, []⟩, ⟨"B".toList, [], true, []⟩] =
      [⟨"B".toList, [], true, []⟩, ⟨"A".toList, [], true, []⟩] := by decide

/-- The `NamingParts` namedtuple: the sample strings shown in the dialog
for one naming format. -/
structure NamingParts where
  index : String
  indexSpacer : String
  number : String
  numberSpacer : String
  name : String
  ext : String
deriving DecidableEq, Repr

/-- The `NamingFormat` namedtuple.  `space` is the character substituted
for spaces in the sheet name (every `space` value in the script is a
one-character string). -/
structure NamingFormat where
  parts : NamingParts
  template : List Char
  space : Char
deriving DecidableEq, Repr

/-- The list assigned to `namingformat_cb.ItemsSource` by
`_setup_naming_formats` (lines 322-414). -/
def namingFormats : List NamingFormat :=
  [⟨⟨"0001", " ", "A1.00", " ", "1ST FLOOR PLAN", ".pdf"⟩,
    "{index} {number} {name}.pdf".toList, ' '⟩,
   ⟨⟨"0001", "_", "A1.00", " ", "1ST FLOOR PLAN", ".pdf"⟩,
    "{index}_{number} {name}.pdf".toList, ' '⟩,
   ⟨⟨"0001", " ", "A1.00", "_", "1ST FLOOR PLAN", ".pdf"⟩,
    "{index} {number}_{name}.pdf".toList, ' '⟩,
   ⟨⟨"0001", "_", "A1.00", "_", "1ST FLOOR PLAN", ".pdf"⟩,
    "{index}_{number}_{name}.pdf".toList, ' '⟩,
   ⟨⟨"0001", "_", "A1.00", "_", "1ST_FLOOR_PLAN", ".pdf"⟩,
    "{index}_{number}_{name}.pdf".toList, '_'⟩,
   ⟨⟨"0001", " ", "A1.00", "", "", ".pdf"⟩,
    "{index} {number}.pdf".toList, ' '⟩,
   ⟨⟨"0001", "_", "A1.00", "", "", ".pdf"⟩,
    "{index}_{number}.pdf".toList, ' '⟩,
   ⟨⟨"0001", " ", "", "", "1ST FLOOR PLAN", ".pdf"⟩,
    "{index} {name}.pdf".toList, ' '⟩,
   ⟨⟨"0001", "_", "", "", "1ST FLOOR PLAN", ".pdf"⟩,
    "{index}_{name}.pdf".toList, ' '⟩,
   ⟨⟨"0001", "_", "", "", "1ST_FLOOR_PLAN", ".pdf"⟩,
    "{index}_{name}.pdf".toList, '_'⟩]

/-- Python's `template.format(index=..., number=..., name=...)` for the
templates above: each replacement field is substituted by the named
value; substituted text is not rescanned. -/
def formatTemplate (tmpl index number name : List Char) : List Char :=
  match tmpl with
  | '{' :: 'i' :: 'n' :: 'd' :: 'e' :: 'x' :: '}' :: rest =>
      index ++ formatTemplate rest index number name
  | '{' :: 'n' :: 'u' :: 'm' :: 'b' :: 'e' :: 'r' :: '}' :: rest =>
      number ++ formatTemplate rest index number name
  | '{' :: 'n' :: 'a' :: 'm' :: 'e' :: '}' :: rest =>
      name ++ formatTemplate rest index number name
  | c :: rest => c :: formatTemplate rest index number name
  | [] => []

/-- Python's `sheet.name.replace(' ', naming_fmt.space)`: every space is
replaced by the format's space character. -/
def replaceSpaces (name : List Char) (space : Char) : List Char :=
  name.map fun c => if c = ' ' then space else c

/-- Modelled from the spec: `coreutils.cleanup_filename(fname,
windows_safe=True)` lives in the `pyrevit.coreutils` library, which is not
among the sources; the spec says only that the formatted name is sanitized
as a Windows-safe filename, so it is modelled as removing the characters
Windows forbids in filenames. -/
def cleanup_filename (s : List Char) : List Char :=
  s.filter fun c => !(['<', '>', ':', '"', '/', '\\', '|', '?', '*'].contains c)

/-- The per-sheet export filename built by `_print_sheets_in_order`
(lines 578-585) and `_print_linked_sheets_in_order` (lines 613-620). -/
def outputFname (fmt : NamingFormat) (sheet : Sheet) : List Char :=
  cleanup_filename
    (formatTemplate fmt.template sheet.printIndex sheet.sheetNumber
      (replaceSpaces sheet.name fmt.space))

/-- The print-submission loop of `_print_sheets_in_order` (lines 576-597):
for each target sheet in order, if it is printable a print job is
submitted with its computed filename, otherwise it is skipped with a
debug log.  The result is the list of submitted (filename, sheet) jobs. -/
def printSheetsInOrder (fmt : NamingFormat) : List Sheet → List (List Char × Sheet)
  | [] => []
  | sheet :: rest =>
      if sheet.printable then
        (outputFname fmt sheet, sheet) :: printSheetsInOrder fmt rest
      else printSheetsInOrder fmt rest

/-- The print-submission loop of `_print_linked_sheets_in_order`
(lines 611-628), identical in shape to `_print_sheets_in_order`. -/
def printLinkedSheetsInOrder (fmt : NamingFormat) :
    List Sheet → List (List Char × Sheet)
  | [] => []
  | sheet :: rest =>
      if sheet.printable then
        (outputFname fmt sheet, sheet) :: printLinkedSheetsInOrder fmt rest
      else printLinkedSheetsInOrder fmt rest

/-- The `Fix Sheet Numbers` loop of `_print_combined_sheets_in_order`
(lines 491-497), started at position `idx`: walks `target_sheets`,
records each original `SheetNumber`, overwrites the sheet number with
`NPC * (idx + 1)` prepended, and inserts the (renamed) sheet into the
`ViewSet` when its `printable` flag is set.  Returns (renamed sheets,
`original_sheetnums`, `sheet_set`). -/
def renameLoop : Nat → List Sheet → List Sheet × List (List Char) × List Sheet
  | _, [] => ([], [], [])
  | idx, sheet :: rest =>
      let renamed := { sheet with
        sheetNumber := List.replicate (idx + 1) NPC ++ sheet.sheetNumber }
      let r := renameLoop (idx + 1) rest
      (renamed :: r.1, sheet.sheetNumber :: r.2.1,
       (if sheet.printable then [renamed] else []) ++ r.2.2)

/-- The `Fix Sheet Numbers` transaction body: `enumerate(target_sheets)`
starts `idx` at 0. -/
def combinedRename (targetSheets : List Sheet) :
    List Sheet × List (List Char) × List Sheet :=
  renameLoop 0 targetSheets

/-- The `Restore Sheet Numbers` loop of `_print_combined_sheets_in_order`
(lines 556-559): `zip(target_sheets, original_sheetnums)` writes each
recorded number back onto its sheet. -/
def restoreSheetNumbers (sheets : List Sheet) (origNums : List (List Char)) :
    List Sheet :=
  List.zipWith (fun s n => { s with sheetNumber := n }) sheets origNums

/-- `cleanup_sheetnumbers` (lines 813-817), restricted to the sheet-number
state it touches: every sheet's `SheetNumber` becomes
`sheet.SheetNumber.replace(NPC, '')`, i.e. with all occurrences of the
one-character marker removed. -/
def cleanup_sheetnumbers (sheets : List Sheet) : List Sheet :=
  sheets.map fun s => { s with sheetNumber := s.sheetNumber.filter (· ≠ NPC) }

example :
    (combinedRename [⟨"A".toList, [], true, []⟩, ⟨"B".toList, [], false, []⟩]).1 =
      [⟨[NPC, 'A'], [], true, []⟩, ⟨[NPC, NPC, 'B'], [], false, []⟩] := by decide

example :
    formatTemplate "{index} {number} {name}.pdf".toList
      "0001".toList "A1.00".toList "1ST FLOOR PLAN".toList =
      "0001 A1.00 1ST FLOOR PLAN.pdf".toList := by decide

/-- One host-API call made by the scripts, as far as transaction discipline
is concerned.  `txnStart`/`txnEnd` delimit a `revit.Transaction` context
manager, `groupStart`/`groupEnd` a `revit.TransactionGroup`;
`mutateSheetState` is a write to host document state (sheet numbers, the
current print setting, the saved view-sheet set); `printConfig` is a
print-manager job configuration that is not document state; `readOnly`
reads; `submitPrint` submits the job. -/
inductive HostEvent where
  | txnStart (name : String)
  | txnEnd
  | groupStart (name : String)
  | groupEnd
  | mutateSheetState (desc : String)
  | printConfig (desc : String)
  | readOnly (desc : String)
  | submitPrint
deriving DecidableEq, Repr

/-- `txnDepth`-tracking check: every `mutateSheetState` event happens
while at least one `revit.Transaction` is open (transaction groups do not
count), and transaction ends are balanced. -/
def mutationsGuarded : Nat → List HostEvent → Bool
  | _, [] => true
  | d, HostEvent.txnStart _ :: rest => mutationsGuarded (d + 1) rest
  | d, HostEvent.txnEnd :: rest => decide (0 < d) && mutationsGuarded (d - 1) rest
  | d, HostEvent.mutateSheetState _ :: rest =>
      decide (0 < d) && mutationsGuarded d rest
  | d, _ :: rest => mutationsGuarded d rest

/-- The straight-line sequence of host-API calls made by
`_print_combined_sheets_in_order` (lines 472-559) on its no-exception
path, in source order. -/
def combinedPrintTrace : List HostEvent :=
  [HostEvent.groupStart "Print Sheets in Order",
   HostEvent.txnStart "Set Printer Settings",
   HostEvent.mutateSheetState "set current print setting",
   HostEvent.mutateSheetState "select new print driver",
   HostEvent.mutateSheetState "set print range",
   HostEvent.txnEnd,
   HostEvent.txnStart "Fix Sheet Numbers",
   HostEvent.mutateSheetState "prepend markers to sheet numbers",
   HostEvent.txnEnd,
   HostEvent.readOnly "collect existing view sheet sets",
   HostEvent.txnStart "Remove Previous Print Set",
   HostEvent.mutateSheetState "delete previous ordered print set",
   HostEvent.txnEnd,
   HostEvent.txnStart "Update Ordered Print Set",
   HostEvent.mutateSheetState "save ordered view sheet set",
   HostEvent.txnEnd,
   HostEvent.printConfig "set print order reverse",
   HostEvent.printConfig "set combined file",
   HostEvent.printConfig "set print to file and file name",
   HostEvent.printConfig "apply",
   HostEvent.submitPrint,
   HostEvent.txnStart "Restore Sheet Numbers",
   HostEvent.mutateSheetState "restore sheet numbers",
   HostEvent.txnEnd,
   HostEvent.groupEnd]

/-- The sequence of host-API calls made by `cleanup_sheetnumbers`
(lines 813-817) for one document. -/
def cleanupTrace : List HostEvent :=
  [HostEvent.txnStart "Cleanup Sheet Numbers",
   HostEvent.mutateSheetState "remove markers from sheet numbers",
   HostEvent.txnEnd]

lemma renameLoop_fst_getElem? (i : Nat) (ts : List Sheet) (idx : Nat) :
    (renameLoop i ts).1[idx]? =
      ts[idx]?.map fun s =>
        { s with sheetNumber := List.replicate (idx + i + 1) NPC ++ s.sheetNumber } := by
  induction ts generalizing i idx with
  | nil => simp [renameLoop]
  | cons s rest ih =>
      cases idx with
      | zero => simp [renameLoop]
      | succ n =>
          simp only [renameLoop, List.getElem?_cons_succ, ih (i + 1) n]
          have h2 : n + (i + 1) + 1 = n + 1 + i + 1 := by omega
          simp only [h2]

/-- C1: with the combine option, before the print job is submitted every
target sheet at 0-based position `idx` has its `SheetNumber` replaced by
`idx + 1` copies of the Left-To-Right Mark `NPC` followed by its original
`SheetNumber`. -/
theorem combinedRename_prepends_markers (targetSheets : List Sheet) (idx : Nat) :
    (combinedRename targetSheets).1[idx]? =
      targetSheets[idx]?.map fun s =>
        { s with sheetNumber := List.replicate (idx + 1) NPC ++ s.sheetNumber } := by
  simpa using renameLoop_fst_getElem? 0 targetSheets idx

lemma renameLoop_snd_fst (i : Nat) (ts : List Sheet) :
    (renameLoop i ts).2.1 = ts.map Sheet.sheetNumber := by
  induction ts generalizing i with
  | nil => simp [renameLoop]
  | cons s rest ih => simp [renameLoop, ih]

lemma orderAssignments_filter (sheets : List Sheet) (sched : List (List Char))
    (k : Nat) :
    (orderAssignments sheets sched).filter (fun p => p.1 == k) =
      (sheets.filter fun s => firstMatchLine s.sheetNumber sched == some k).map
        fun s => (k, s) := by
  induction sheets with
  | nil => rfl
  | cons s rest ih =>
      simp only [orderAssignments, List.filterMap_cons] at ih ⊢
      cases h : firstMatchLine s.sheetNumber sched with
      | none => simp [h, ih, List.filter_cons]
      | some j =>
          by_cases hk : j = k
          · subst hk
            simp [h, List.filter_cons, ih]
          · simp [h, List.filter_cons, hk, ih]

lemma dictGet_orderAssignments (sheets : List Sheet) (sched : List (List Char))
    (k : Nat) :
    dictGet (orderAssignments sheets sched) k =
      (sheets.filter fun s =>
        firstMatchLine s.sheetNumber sched == some k).getLast? := by
  rw [dictGet, orderAssignments_filter, List.getLast?_map, Option.map_map]
  cases (sheets.filter fun s =>
    firstMatchLine s.sheetNumber sched == some k).getLast? <;> rfl

lemma dictGet_orderAssignments_some {sheets : List Sheet}
    {sched : List (List Char)} {k : Nat} {s : Sheet}
    (h : dictGet (orderAssignments sheets sched) k = some s) :
    s ∈ sheets ∧ firstMatchLine s.sheetNumber sched = some k := by
  rw [dictGet_orderAssignments] at h
  have hmem := List.mem_filter.mp (List.mem_of_mem_getLast? h)
  exact ⟨hmem.1, by simpa using hmem.2⟩

lemma mem_orderAssignments_keys {sheets : List Sheet}
    {sched : List (List Char)} {k : Nat} :
    k ∈ (orderAssignments sheets sched).map Prod.fst ↔
      ∃ s ∈ sheets, firstMatchLine s.sheetNumber sched = some k := by
  simp only [orderAssignments, List.map_filterMap, List.mem_filterMap]
  constructor
  · rintro ⟨s, hs, hfs⟩
    cases h : firstMatchLine s.sheetNumber sched with
    | none => rw [h] at hfs; simp at hfs
    | some j =>
        rw [h] at hfs
        simp only [Option.map_some, Option.map] at hfs
        exact ⟨s, hs, by rw [h, Option.some_inj.mp hfs]⟩
  · rintro ⟨s, hs, hfs⟩
    exact ⟨s, hs, by rw [hfs]; rfl⟩

lemma orderSheetsBySchedData_eq_filterMap (sched : List (List Char))
    (sheets : List Sheet) (hne : sched ≠ []) :
    orderSheetsBySchedData sched sheets =
      (List.insertionSort (· ≤ ·)
        ((orderAssignments sheets sched).map Prod.fst).dedup).filterMap
        (dictGet (orderAssignments sheets sched)) := by
  rw [orderSheetsBySchedData, if_neg (by simpa using hne)]

lemma orderAssignments_keys_pairwise_lt (sched : List (List Char))
    (sheets : List Sheet) :
    (List.insertionSort (· ≤ ·)
      ((orderAssignments sheets sched).map Prod.fst).dedup).Pairwise (· < ·) := by
  have hsorted : (List.insertionSort (· ≤ ·)
      ((orderAssignments sheets sched).map Prod.fst).dedup).Pairwise (· ≤ ·) :=
    List.sorted_insertionSort (· ≤ ·) _
  have hnodup : (List.insertionSort (· ≤ ·)
      ((orderAssignments sheets sched).map Prod.fst).dedup).Nodup :=
    (List.perm_insertionSort (· ≤ ·) _).nodup_iff.mpr (List.nodup_dedup _)
  exact (hsorted.and hnodup).imp fun h => lt_of_le_of_ne h.1 h.2

/-- A concrete sheet with number `A`, used for counterexamples. -/
def exSheetA : Sheet := ⟨"A".toList, [], true, []⟩

/-- A concrete sheet with number `B`, used for counterexamples. -/
def exSheetB : Sheet := ⟨"B".toList, [], true, []⟩

/-- C3 counterexample: for the schedule text with the single line `A⟶B`
(fields `A` and `B`) and input sheets numbered `A` and `B`, both sheets'
first matching line is line 0, and the `ordered_sheets_dict[line_no]`
assignment for `B` overwrites the one for `A`: the output is `[B]` and
the sheet numbered `A` — whose number is a tab-delimited field of its
first matching line — is missing, so the operation does not arrange the
input sheets by their first matching line. -/
theorem order_sheets_drops_colliding_sheet :
    "A".toList ∈ List.splitOn '\t' "A\tB".toList ∧
      firstMatchLine exSheetA.sheetNumber ["A\tB".toList] = some 0 ∧
      firstMatchLine exSheetB.sheetNumber ["A\tB".toList] = some 0 ∧
      orderSheetsBySchedData ["A\tB".toList] [exSheetA, exSheetB] = [exSheetB] ∧
      exSheetA ∉ orderSheetsBySchedData ["A\tB".toList] [exSheetA, exSheetB] := by
  decide

/-- C3 amended: for non-empty schedule text, the output consists of, for
each line number `k` that is the first matching line of at least one
input sheet, the **last** input sheet whose first matching line is `k`
(earlier sheets colliding on the same line are dropped), arranged in
strictly ascending order of first matching line; with no schedule text
the input list is returned unchanged. -/
theorem order_sheets_by_schedule_characterization (sched : List (List Char))
    (sheets : List Sheet) (hne : sched ≠ []) :
    (∀ s : Sheet, s ∈ orderSheetsBySchedData sched sheets ↔
        ∃ k : Nat, (sheets.filter fun t =>
          firstMatchLine t.sheetNumber sched == some k).getLast? = some s) ∧
      (orderSheetsBySchedData sched sheets).Pairwise (fun a b =>
        ∀ ka kb, firstMatchLine a.sheetNumber sched = some ka →
          firstMatchLine b.sheetNumber sched = some kb → ka < kb) ∧
      orderSheetsBySchedData [] sheets = sheets := by
  rw [orderSheetsBySchedData_eq_filterMap sched sheets hne]
  refine ⟨?_, ?_, rfl⟩
  · intro s
    rw [List.mem_filterMap]
    constructor
    · rintro ⟨k, _, hdict⟩
      exact ⟨k, (dictGet_orderAssignments sheets sched k) ▸ hdict⟩
    · rintro ⟨k, hlast⟩
      refine ⟨k, ?_, ?_⟩
      · rw [List.mem_insertionSort, List.mem_dedup, mem_orderAssignments_keys]
        have hmem := List.mem_filter.mp (List.mem_of_mem_getLast? hlast)
        exact ⟨s, hmem.1, by simpa using hmem.2⟩
      · rw [dictGet_orderAssignments]
        exact hlast
  · refine List.pairwise_filterMap.mpr ?_
    refine (orderAssignments_keys_pairwise_lt sched sheets).imp ?_
    intro k1 k2 hlt b hb b' hb' ka kb hka hkb
    have h1 := dictGet_orderAssignments_some (Option.mem_def.mp hb)
    have h2 := dictGet_orderAssignments_some (Option.mem_def.mp hb')
    rw [h1.2] at hka
    rw [h2.2] at hkb
    have hk1 : k1 = ka := Option.some_inj.mp hka
    have hk2 : k2 = kb := Option.some_inj.mp hkb
    omega

/-- C7: for non-empty schedule text, every sheet in the ordered output is
an input sheet whose number matches some schedule line, the output has no
duplicates, sheets matching no line never appear, and the output can be
strictly shorter than the input (shown on a concrete instance). -/
theorem order_sheets_only_matching_nodup (sched : List (List Char))
    (sheets : List Sheet) (hne : sched ≠ []) :
    (∀ s ∈ orderSheetsBySchedData sched sheets,
        s ∈ sheets ∧ (firstMatchLine s.sheetNumber sched).isSome) ∧
      (orderSheetsBySchedData sched sheets).Nodup ∧
      (∀ s ∈ sheets, firstMatchLine s.sheetNumber sched = none →
        s ∉ orderSheetsBySchedData sched sheets) ∧
      (orderSheetsBySchedData ["X".toList] [exSheetA]).length <
        [exSheetA].length := by
  rw [orderSheetsBySchedData_eq_filterMap sched sheets hne]
  have hout : ∀ s ∈ (List.insertionSort (· ≤ ·)
      ((orderAssignments sheets sched).map Prod.fst).dedup).filterMap
        (dictGet (orderAssignments sheets sched)),
      s ∈ sheets ∧ (firstMatchLine s.sheetNumber sched).isSome := by
    intro s hs
    obtain ⟨k, _, hdict⟩ := List.mem_filterMap.mp hs
    have h := dictGet_orderAssignments_some hdict
    exact ⟨h.1, by rw [h.2]; rfl⟩
  refine ⟨hout, ?_, ?_, by decide⟩
  · refine List.Nodup.filterMap ?_ ?_
    · intro a a' b hb hb'
      have h1 := dictGet_orderAssignments_some (Option.mem_def.mp hb)
      have h2 := dictGet_orderAssignments_some (Option.mem_def.mp hb')
      rw [h1.2] at h2
      exact Option.some_inj.mp h2.2
    · exact (List.perm_insertionSort (· ≤ ·) _).nodup_iff.mpr
        (List.nodup_dedup _)
  · intro s _ hnone hmem
    have h := (hout s hmem).2
    rw [hnone] at h
    exact Bool.noConfusion h

/-- Witness for the amended C3 theorem at a concrete input: schedule
lines `B`, `A` and sheets `A`, `B`. -/
theorem order_sheets_characterization_witness :
    exSheetB ∈ orderSheetsBySchedData ["B".toList, "A".toList]
        [exSheetA, exSheetB] ↔
      ∃ k : Nat, ([exSheetA, exSheetB].filter fun t =>
        firstMatchLine t.sheetNumber ["B".toList, "A".toList] ==
          some k).getLast? = some exSheetB :=
  (order_sheets_by_schedule_characterization ["B".toList, "A".toList]
    [exSheetA, exSheetB] (by decide)).1 exSheetB

/-- Witness for the C7 theorem at a concrete input. -/
theorem order_sheets_only_matching_nodup_witness :
    (orderSheetsBySchedData ["B".toList, "A".toList]
        [exSheetA, exSheetB]).Nodup ∧
      (orderSheetsBySchedData ["X".toList] [exSheetA]).length <
        [exSheetA].length :=
  ⟨(order_sheets_only_matching_nodup ["B".toList, "A".toList]
      [exSheetA, exSheetB] (by decide)).2.1,
   (order_sheets_only_matching_nodup ["B".toList, "A".toList]
      [exSheetA, exSheetB] (by decide)).2.2.2⟩

/-- C5: if opening the exported schedule data file raises, the exception
is caught locally: `_get_schedule_text_data` returns the empty
`sched_data` list, `_order_sheets_by_schedule_data` then returns its
input sheet list unchanged, and no failure propagates (the embedding is a
total function). -/
theorem scheduleReadFailure_returns_input (err : List Char)
    (sheetList : List Sheet) :
    getScheduleTextData (.error err) = [] ∧
      orderSheetsBySchedule (.error err) sheetList = sheetList := by
  exact ⟨rfl, rfl⟩

/-- C6: in `_print_combined_sheets_in_order` and `cleanup_sheetnumbers`,
every mutation of host document state — setting printer settings,
prepending markers to sheet numbers, deleting and saving the ordered
print set, restoring sheet numbers, and removing markers in the
shift-click cleanup — happens while a `revit.Transaction` is open. -/
theorem mutations_inside_transactions :
    mutationsGuarded 0 combinedPrintTrace = true ∧
      mutationsGuarded 0 cleanupTrace = true := by
  exact ⟨rfl, rfl⟩

/-- C9: the shift-click cleanup rewrites every sheet's `SheetNumber` to
the same string with all occurrences of `NPC` removed, and it is
idempotent: a second run changes nothing. -/
theorem cleanup_sheetnumbers_removes_npc_and_idempotent (sheets : List Sheet) :
    (∀ i : Nat, (cleanup_sheetnumbers sheets)[i]?.map Sheet.sheetNumber =
        sheets[i]?.map fun s => s.sheetNumber.filter (· ≠ NPC)) ∧
      cleanup_sheetnumbers (cleanup_sheetnumbers sheets) =
        cleanup_sheetnumbers sheets := by
  constructor
  · intro i
    simp only [cleanup_sheetnumbers, List.getElem?_map, Option.map_map]
    cases sheets[i]? <;> rfl
  · simp [cleanup_sheetnumbers, List.map_map]

lemma printSheetsInOrder_eq (fmt : NamingFormat) (sheets : List Sheet) :
    printSheetsInOrder fmt sheets =
      (sheets.filter (·.printable)).map fun s => (outputFname fmt s, s) := by
  induction sheets with
  | nil => rfl
  | cons s rest ih =>
      by_cases h : s.printable
      · simp [printSheetsInOrder, List.filter_cons, h, ih]
      · simp [printSheetsInOrder, List.filter_cons, h, ih]

lemma printLinkedSheetsInOrder_eq (fmt : NamingFormat) (sheets : List Sheet) :
    printLinkedSheetsInOrder fmt sheets =
      (sheets.filter (·.printable)).map fun s => (outputFname fmt s, s) := by
  induction sheets with
  | nil => rfl
  | cons s rest ih =>
      by_cases h : s.printable
      · simp [printLinkedSheetsInOrder, List.filter_cons, h, ih]
      · simp [printLinkedSheetsInOrder, List.filter_cons, h, ih]

/-- C4: the dialog offers exactly ten naming formats, and for every
printable sheet printed individually the export filename substitutes the
sheet's print index, sheet number, and space-adjusted name into the
chosen template and sanitizes the result; the substitution is checked
concretely on the first template. -/
theorem naming_formats_and_filenames :
    namingFormats.length = 10 ∧
      (∀ fmt ∈ namingFormats, ∀ sheets : List Sheet,
        printSheetsInOrder fmt sheets =
          (sheets.filter (·.printable)).map fun s =>
            (cleanup_filename
              (formatTemplate fmt.template s.printIndex s.sheetNumber
                (replaceSpaces s.name fmt.space)), s)) ∧
      formatTemplate "{index} {number} {name}.pdf".toList
          "0001".toList "A1.00".toList "1ST FLOOR PLAN".toList =
        "0001 A1.00 1ST FLOOR PLAN.pdf".toList := by
  refine ⟨rfl, ?_, by decide⟩
  intro fmt _ sheets
  exact printSheetsInOrder_eq fmt sheets

/-- The first naming format, spelled out for the C4 witness. -/
def exFormat : NamingFormat :=
  ⟨⟨"0001", " ", "A1.00", " ", "1ST FLOOR PLAN", ".pdf"⟩,
   "{index} {number} {name}.pdf".toList, ' '⟩

/-- A concrete printable sheet for the C4 witness. -/
def exPrintSheet : Sheet :=
  ⟨"A1.00".toList, "1ST FLOOR PLAN".toList, true, "0001".toList⟩

/-- Witness for the C4 theorem at a concrete format and sheet. -/
theorem naming_formats_and_filenames_witness :
    exFormat ∈ namingFormats ∧
      printSheetsInOrder exFormat [exPrintSheet] =
        ([exPrintSheet].filter (·.printable)).map fun s =>
          (cleanup_filename
            (formatTemplate exFormat.template s.printIndex s.sheetNumber
              (replaceSpaces s.name exFormat.space)), s) :=
  ⟨by decide, naming_formats_and_filenames.2.1 exFormat (by decide)
    [exPrintSheet]⟩

lemma renameLoop_viewset (i : Nat) (ts : List Sheet) :
    (renameLoop i ts).2.2 = (renameLoop i ts).1.filter (·.printable) := by
  induction ts generalizing i with
  | nil => rfl
  | cons s rest ih =>
      by_cases h : s.printable
      · simp [renameLoop, List.filter_cons, h, ih]
      · simp [renameLoop, List.filter_cons, h, ih]

/-- C8: a print job is submitted only for printable sheets.  Individual
and linked printing submit exactly the printable target sheets;
combined printing inserts into the view-sheet set exactly the printable
(renamed) sheets, while the renaming itself hits every target sheet,
printable or not. -/
theorem only_printable_sheets_printed :
    (∀ (fmt : NamingFormat) (sheets : List Sheet),
        (printSheetsInOrder fmt sheets).map Prod.snd =
          sheets.filter (·.printable)) ∧
      (∀ (fmt : NamingFormat) (sheets : List Sheet),
        (printLinkedSheetsInOrder fmt sheets).map Prod.snd =
          sheets.filter (·.printable)) ∧
      (∀ targetSheets : List Sheet,
        (combinedRename targetSheets).2.2 =
          (combinedRename targetSheets).1.filter (·.printable)) ∧
      (∀ (targetSheets : List Sheet) (idx : Nat),
        (combinedRename targetSheets).1[idx]? =
          targetSheets[idx]?.map fun s =>
            { s with
              sheetNumber := List.replicate (idx + 1) NPC ++ s.sheetNumber }) := by
  refine ⟨?_, ?_, ?_, ?_⟩
  · intro fmt sheets
    rw [printSheetsInOrder_eq, List.map_map]
    have hc : (Prod.snd ∘ fun s : Sheet => (outputFname fmt s, s)) = id := rfl
    rw [hc, List.map_id]
  · intro fmt sheets
    rw [printLinkedSheetsInOrder_eq, List.map_map]
    have hc : (Prod.snd ∘ fun s : Sheet => (outputFname fmt s, s)) = id := rfl
    rw [hc, List.map_id]
  · intro targetSheets
    exact renameLoop_viewset 0 targetSheets
  · intro targetSheets idx
    simpa using renameLoop_fst_getElem? 0 targetSheets idx

/-- C2: renaming followed by restoring is a round trip: after the
`Restore Sheet Numbers` transaction, every target sheet's `SheetNumber`
equals the value recorded before the `Fix Sheet Numbers` transaction. -/
theorem combinedRename_restore_roundtrip (targetSheets : List Sheet) :
    restoreSheetNumbers (combinedRename targetSheets).1
        (combinedRename targetSheets).2.1 = targetSheets := by
  suffices h : ∀ i, restoreSheetNumbers (renameLoop i targetSheets).1
      (renameLoop i targetSheets).2.1 = targetSheets from h 0
  intro i
  induction targetSheets generalizing i with
  | nil => simp [renameLoop, restoreSheetNumbers]
  | cons s rest ih =>
      have h1 : restoreSheetNumbers (renameLoop i (s :: rest)).1
          (renameLoop i (s :: rest)).2.1 =
            s :: restoreSheetNumbers (renameLoop (i + 1) rest).1
              (renameLoop (i + 1) rest).2.1 := rfl
      rw [h1, ih]


